import Mathlib

/-!
Verification of the gibram knowledge-graph server core against its
natural-language specification.

The development shallowly embeds the Go sources:
- `pkg/simd/distance.go` and `pkg/simd/distance_amd64.go` (distance kernels);
- `pkg/types` session quota / TTL logic;
- `pkg/engine/cleanup_scheduler.go` (heap-based session eviction);
- the `pkg/codec` binary WAL-entry and snapshot-header codecs;
- the `pkg/backup` snapshot reader (modelled from the spec, its
  implementation file is not among the sources, only its tests).

Conventions: Go `float32`/`float64` arithmetic is modelled exactly over `ℚ`
(additions, multiplications, divisions and comparisons keep the structure of
the source; `math.Sqrt`, which has no rational counterpart, is a function
parameter instantiated only at inputs where IEEE sqrt is exact). Go machine
integers are modelled as `Int`/`Nat`, with explicit `% 2 ^ w` at the points
where the source converts or would overflow. Byte strings are `List Nat`
with each element a byte value.
-/

namespace Gibram

/-! ## Distance kernels: `pkg/simd/distance.go`, `pkg/simd/distance_amd64.go` -/

namespace Simd

/-- One iteration of the accumulation loop shared by the scalar kernels and the
remainder/unrolled loops of the widened kernels in the source: given the
running `(dot, normA, normB)` triple and the pair `(a[i], b[i])`, add
`a[i]*b[i]` to `dot`, `a[i]*a[i]` to `normA`, and `b[i]*b[i]` to `normB`.
This is the loop body of `cosineSimilarityScalar` (distance.go lines 31-35)
and, unrolled eight at a time, of `cosineSimilarityAVX2`
(distance_amd64.go lines 32-47); the additions are performed in the same
index order in both. -/
def cosineStep (acc : ℚ × ℚ × ℚ) (p : ℚ × ℚ) : ℚ × ℚ × ℚ :=
  (acc.1 + p.1 * p.2, acc.2.1 + p.1 * p.1, acc.2.2 + p.2 * p.2)

/-- The accumulation phase of `cosineSimilarityAVX2` (distance_amd64.go lines
28-47): blocks of eight index pairs are consumed while at least eight remain
(`for ; i+8 <= n; i += 8`, with the manually unrolled inner `j` loop applying
the updates in index order), then a remainder loop handles the tail. -/
def cosineSumsAVX2 : List (ℚ × ℚ) → ℚ × ℚ × ℚ → ℚ × ℚ × ℚ
  | p0 :: p1 :: p2 :: p3 :: p4 :: p5 :: p6 :: p7 :: rest, acc =>
      cosineSumsAVX2 rest
        (List.foldl cosineStep acc [p0, p1, p2, p3, p4, p5, p6, p7])
  | ps, acc => List.foldl cosineStep acc ps

/-- Embedding of `fastSqrt` (distance_amd64.go lines 139-153).  The Go code
is an adaptation of the Quake-III inverse-square-root: for `x <= 0` it
returns 0, otherwise it computes `i := 0x5fe6eb50c7b537a9 - (int64(x) >> 1)`,
one Newton step `y = y * (1.5 - half*y*y)` on `y := float64(i)`, and returns
`x * y`.  Note `int64(x)` in Go truncates the numeric value of `x` toward
zero (here `x > 0`, so it is the floor), and `>> 1` on the resulting
non-negative integer halves it; the arithmetic is modelled exactly over `ℚ`
(the intermediate float64 values at the inputs used in the theorems below
stay far from overflow, and exact arithmetic only sharpens them). -/
def fastSqrt (x : ℚ) : ℚ :=
  if x ≤ 0 then 0
  else
    let half := x * (1 / 2)
    let i : Int := 0x5fe6eb50c7b537a9 - ⌊x⌋ / 2
    let y : ℚ := (i : ℚ)
    let y2 := y * (3 / 2 - half * y * y)
    x * y2

/-- Embedding of `float32Sqrt` (distance_amd64.go lines 132-136): despite its
comment claiming to use the built-in sqrt, the body calls `fastSqrt`.  The
final float32 conversion is modelled as the identity (at the inputs used
below the exact value is astronomically far from any square root either
way). -/
def float32Sqrt (x : ℚ) : ℚ :=
  fastSqrt x

/-- Embedding of `cosineSimilarityScalar` (distance.go lines 25-42), with
`sqrtFn` standing for `x ↦ float32(math.Sqrt(float64(x)))`. -/
def cosineSimilarityScalar (sqrtFn : ℚ → ℚ) (a b : List ℚ) : ℚ :=
  if a.length ≠ b.length then 0
  else
    let s := List.foldl cosineStep (0, 0, 0) (a.zip b)
    if s.2.1 = 0 ∨ s.2.2 = 0 then 0
    else s.1 / (sqrtFn s.2.1 * sqrtFn s.2.2)

/-- Embedding of `cosineSimilarityAVX2` (distance_amd64.go lines 21-54). -/
def cosineSimilarityAVX2 (a b : List ℚ) : ℚ :=
  if a.length ≠ b.length then 0
  else
    let s := cosineSumsAVX2 (a.zip b) (0, 0, 0)
    if s.2.1 = 0 ∨ s.2.2 = 0 then 0
    else s.1 / (float32Sqrt s.2.1 * float32Sqrt s.2.2)

/-- Embedding of the public `CosineSimilarity` dispatcher (distance.go lines
10-22); `hasAVX2` models the runtime CPU-feature probe `hasAVX2()`. -/
def CosineSimilarity (sqrtFn : ℚ → ℚ) (hasAVX2 : Bool) (a b : List ℚ) : ℚ :=
  if a.length ≠ b.length then 0
  else if hasAVX2 ∧ 8 ≤ a.length then cosineSimilarityAVX2 a b
  else cosineSimilarityScalar sqrtFn a b

/-- Loop body shared by `euclideanDistanceScalar` (distance.go lines 66-69)
and the loops of `euclideanDistanceAVX2` (distance_amd64.go lines 67-79):
add `(a[i]-b[i])^2` to the running sum. -/
def euclideanStep (acc : ℚ) (p : ℚ × ℚ) : ℚ :=
  acc + (p.1 - p.2) * (p.1 - p.2)

/-- The accumulation phase of `euclideanDistanceAVX2` (distance_amd64.go
lines 63-79): eight-wide blocks then a remainder loop. -/
def euclideanSumsAVX2 : List (ℚ × ℚ) → ℚ → ℚ
  | p0 :: p1 :: p2 :: p3 :: p4 :: p5 :: p6 :: p7 :: rest, acc =>
      euclideanSumsAVX2 rest
        (List.foldl euclideanStep acc [p0, p1, p2, p3, p4, p5, p6, p7])
  | ps, acc => List.foldl euclideanStep acc ps

/-- Embedding of `euclideanDistanceScalar` (distance.go lines 60-72). -/
def euclideanDistanceScalar (sqrtFn : ℚ → ℚ) (a b : List ℚ) : ℚ :=
  if a.length ≠ b.length then 0
  else sqrtFn (List.foldl euclideanStep 0 (a.zip b))

/-- Embedding of `euclideanDistanceAVX2` (distance_amd64.go lines 57-82),
whose final square root goes through `float32Sqrt`, i.e. `fastSqrt`. -/
def euclideanDistanceAVX2 (a b : List ℚ) : ℚ :=
  if a.length ≠ b.length then 0
  else float32Sqrt (euclideanSumsAVX2 (a.zip b) 0)

/-- Embedding of the public `EuclideanDistance` dispatcher (distance.go
lines 45-57). -/
def EuclideanDistance (sqrtFn : ℚ → ℚ) (hasAVX2 : Bool) (a b : List ℚ) : ℚ :=
  if a.length ≠ b.length then 0
  else if hasAVX2 ∧ 8 ≤ a.length then euclideanDistanceAVX2 a b
  else euclideanDistanceScalar sqrtFn a b

/-- Loop body shared by `dotProductScalar` (distance.go lines 95-98) and the
loops of `dotProductAVX2` (distance_amd64.go lines 94-104). -/
def dotStep (acc : ℚ) (p : ℚ × ℚ) : ℚ :=
  acc + p.1 * p.2

/-- The accumulation phase of `dotProductAVX2` (distance_amd64.go lines
91-104): eight-wide blocks then a remainder loop. -/
def dotSumsAVX2 : List (ℚ × ℚ) → ℚ → ℚ
  | p0 :: p1 :: p2 :: p3 :: p4 :: p5 :: p6 :: p7 :: rest, acc =>
      dotSumsAVX2 rest
        (List.foldl dotStep acc [p0, p1, p2, p3, p4, p5, p6, p7])
  | ps, acc => List.foldl dotStep acc ps

/-- Embedding of `dotProductScalar` (distance.go lines 90-101). -/
def dotProductScalar (a b : List ℚ) : ℚ :=
  if a.length ≠ b.length then 0
  else List.foldl dotStep 0 (a.zip b)

/-- Embedding of `dotProductAVX2` (distance_amd64.go lines 85-107). -/
def dotProductAVX2 (a b : List ℚ) : ℚ :=
  if a.length ≠ b.length then 0
  else dotSumsAVX2 (a.zip b) 0

/-- Embedding of the public `DotProduct` dispatcher (distance.go lines
75-87). -/
def DotProduct (hasAVX2 : Bool) (a b : List ℚ) : ℚ :=
  if a.length ≠ b.length then 0
  else if hasAVX2 ∧ 8 ≤ a.length then dotProductAVX2 a b
  else dotProductScalar a b

/-- The squared norm of a vector, accumulated the way both kernels
accumulate `normA`/`normB` (left fold of `acc + x*x` starting at 0). -/
def sumSq (v : List ℚ) : ℚ :=
  List.foldl (fun acc x => acc + x * x) 0 v

/-- Exact square root on perfect squares of naturals: agrees with
`float32(math.Sqrt(float64 x))` at every natural `x` that is a perfect
square small enough to be exactly representable (IEEE sqrt of an exactly
represented perfect square is exact).  Used to instantiate the `sqrtFn`
parameter of the scalar kernels at such inputs. -/
def intSqrt (q : ℚ) : ℚ :=
  ((Nat.sqrt q.num.toNat : Int) : ℚ)

end Simd

/-! ## Sessions: quota, counter and TTL logic from `pkg/types` (errors.go,
session part).  Timestamps and TTLs are `int64` nanoseconds, counters and
quota caps are Go `int`/`int64`; all are modelled as `Int` (no arithmetic in
these methods comes near the 64-bit range for in-range sessions). -/

namespace Types

/-- The pure data of the Go `Session` struct (errors.go lines 174-197); the
mutex only guards concurrent access and carries no state. -/
structure Session where
  ID : String
  CreatedAt : Int
  LastAccess : Int
  TTL : Int
  IdleTTL : Int
  MaxEntities : Int
  MaxRelationships : Int
  MaxDocuments : Int
  MaxMemoryBytes : Int
  EntityCount : Int
  RelationshipCount : Int
  DocumentCount : Int
  MemoryBytes : Int
deriving Repr, DecidableEq

/-- The four quota errors of errors.go lines 162-167. -/
inductive QuotaError where
  | entityQuotaExceeded
  | relationshipQuotaExceeded
  | documentQuotaExceeded
  | memoryQuotaExceeded
deriving Repr, DecidableEq

/-- Embedding of `Session.CheckEntityQuota` (errors.go lines 251-258):
`none` models the `nil` (success) return. -/
def Session.CheckEntityQuota (s : Session) (count : Int) : Option QuotaError :=
  if s.MaxEntities > 0 ∧ s.EntityCount + count > s.MaxEntities then
    some .entityQuotaExceeded
  else none

/-- Embedding of `Session.CheckRelationshipQuota` (errors.go lines 261-268). -/
def Session.CheckRelationshipQuota (s : Session) (count : Int) : Option QuotaError :=
  if s.MaxRelationships > 0 ∧ s.RelationshipCount + count > s.MaxRelationships then
    some .relationshipQuotaExceeded
  else none

/-- Embedding of `Session.CheckDocumentQuota` (errors.go lines 271-278). -/
def Session.CheckDocumentQuota (s : Session) (count : Int) : Option QuotaError :=
  if s.MaxDocuments > 0 ∧ s.DocumentCount + count > s.MaxDocuments then
    some .documentQuotaExceeded
  else none

/-- Embedding of `Session.CheckMemoryQuota` (errors.go lines 281-288). -/
def Session.CheckMemoryQuota (s : Session) (bytes : Int) : Option QuotaError :=
  if s.MaxMemoryBytes > 0 ∧ s.MemoryBytes + bytes > s.MaxMemoryBytes then
    some .memoryQuotaExceeded
  else none

/-- Embedding of `Session.IncrementEntity` (errors.go lines 291-295). -/
def Session.IncrementEntity (s : Session) (count : Int) : Session :=
  { s with EntityCount := s.EntityCount + count }

/-- Embedding of `Session.DecrementEntity` (errors.go lines 298-305):
subtract, then clamp at zero. -/
def Session.DecrementEntity (s : Session) (count : Int) : Session :=
  let c := s.EntityCount - count
  { s with EntityCount := if c < 0 then 0 else c }

/-- Embedding of `Session.IncrementRelationship` (errors.go lines 308-312). -/
def Session.IncrementRelationship (s : Session) (count : Int) : Session :=
  { s with RelationshipCount := s.RelationshipCount + count }

/-- Embedding of `Session.DecrementRelationship` (errors.go lines 315-322). -/
def Session.DecrementRelationship (s : Session) (count : Int) : Session :=
  let c := s.RelationshipCount - count
  { s with RelationshipCount := if c < 0 then 0 else c }

/-- Embedding of `Session.IncrementDocument` (errors.go lines 325-329). -/
def Session.IncrementDocument (s : Session) (count : Int) : Session :=
  { s with DocumentCount := s.DocumentCount + count }

/-- Embedding of `Session.DecrementDocument` (errors.go lines 332-339). -/
def Session.DecrementDocument (s : Session) (count : Int) : Session :=
  let c := s.DocumentCount - count
  { s with DocumentCount := if c < 0 then 0 else c }

/-- Embedding of `Session.AddMemory` (errors.go lines 342-346). -/
def Session.AddMemory (s : Session) (bytes : Int) : Session :=
  { s with MemoryBytes := s.MemoryBytes + bytes }

/-- Embedding of `Session.SubMemory` (errors.go lines 349-356). -/
def Session.SubMemory (s : Session) (bytes : Int) : Session :=
  let m := s.MemoryBytes - bytes
  { s with MemoryBytes := if m < 0 then 0 else m }

/-- Embedding of `Session.IsExpired` (errors.go lines 359-376), with the
`time.Now().UnixNano()` read passed in as `now`. -/
def Session.IsExpired (s : Session) (now : Int) : Bool :=
  if s.TTL > 0 ∧ s.CreatedAt + s.TTL < now then true
  else if s.IdleTTL > 0 ∧ s.LastAccess + s.IdleTTL < now then true
  else false

/-- Embedding of `Session.GetExpireAt` (errors.go lines 379-397). -/
def Session.GetExpireAt (s : Session) : Int :=
  let expireAt : Int := if s.TTL > 0 then s.CreatedAt + s.TTL else 0
  if s.IdleTTL > 0 then
    let idleExpire := s.LastAccess + s.IdleTTL
    if expireAt = 0 ∨ idleExpire < expireAt then idleExpire else expireAt
  else expireAt

/-- One call in a sequence of counter mutations on a session: the arguments
are the `count`/`bytes` parameters of the corresponding Go methods. -/
inductive CounterOp where
  | incEntity (count : Int)
  | decEntity (count : Int)
  | incRelationship (count : Int)
  | decRelationship (count : Int)
  | incDocument (count : Int)
  | decDocument (count : Int)
  | addMemory (bytes : Int)
  | subMemory (bytes : Int)
deriving Repr, DecidableEq

/-- Dispatch of a `CounterOp` to the corresponding session method. -/
def applyCounterOp (s : Session) : CounterOp → Session
  | .incEntity n => s.IncrementEntity n
  | .decEntity n => s.DecrementEntity n
  | .incRelationship n => s.IncrementRelationship n
  | .decRelationship n => s.DecrementRelationship n
  | .incDocument n => s.IncrementDocument n
  | .decDocument n => s.DecrementDocument n
  | .addMemory n => s.AddMemory n
  | .subMemory n => s.SubMemory n

/-- A whole sequence of counter mutations, applied in order. -/
def applyCounterOps (s : Session) (ops : List CounterOp) : Session :=
  ops.foldl applyCounterOp s

/-- The numeric argument of a counter mutation. -/
def CounterOp.arg : CounterOp → Int
  | .incEntity n => n
  | .decEntity n => n
  | .incRelationship n => n
  | .decRelationship n => n
  | .incDocument n => n
  | .decDocument n => n
  | .addMemory n => n
  | .subMemory n => n

end Types

/-! ## Session cleanup scheduler: `pkg/engine/cleanup_scheduler.go`.

The scheduler's heap (`expiryHeap`, backed by Go's `container/heap`) is
modelled as a list of entries together with the `container/heap` contract:
`heap.Pop` removes and returns a minimum element with respect to `Less`
(`h[i].expireAt < h[j].expireAt`).  `container/heap` is the Go standard
library, not part of this repository, so it is embedded by that documented
contract (`popMinExpiry` below removes one minimum element).  The engine's
`sessions` map (used by `cleanup` via `s.engine.sessions`; the `Engine`
struct itself lives outside the provided sources and only its `sessions`
field is touched here) is modelled as a partial map `String → Option
Session`. -/

namespace Engine

/-- The `sessionExpiry` heap entry (cleanup_scheduler.go lines 11-15); the
`index` field is bookkeeping internal to `container/heap` and carries no
information once the heap is modelled by its contract. -/
structure SessionExpiry where
  sessionID : String
  expireAt : Int
deriving Repr, DecidableEq

/-- The `container/heap` contract for `heap.Pop` on `expiryHeap`: remove and
return a minimum element by `expireAt` (ties broken arbitrarily; this model
keeps the earliest minimum). Returns `none` on an empty heap. -/
def popMinExpiry : List SessionExpiry → Option (SessionExpiry × List SessionExpiry)
  | [] => none
  | e :: es =>
    match popMinExpiry es with
    | none => some (e, [])
    | some (m, rest) =>
        if m.expireAt < e.expireAt then some (m, e :: rest) else some (e, es)

/-- The collection loop of `SessionCleanupScheduler.cleanup`
(cleanup_scheduler.go lines 122-129): `for s.heap.Len() > 0 &&
s.heap[0].expireAt <= now` pop the root and record its session id.  The
loop is driven by an explicit bound (each pop removes one entry, so
`h.length` steps always suffice; `collectExpired` below instantiates the
bound that way); it returns the remaining heap and the collected
`toRemove` ids in pop order. -/
def collectExpiredGo (now : Int) : Nat → List SessionExpiry → List SessionExpiry × List String
  | 0, h => (h, [])
  | n + 1, h =>
    match popMinExpiry h with
    | none => (h, [])
    | some (m, rest) =>
        if m.expireAt ≤ now then
          let p := collectExpiredGo now n rest
          (p.1, m.sessionID :: p.2)
        else (h, [])

/-- The collection loop of `cleanup` run to completion. -/
def collectExpired (now : Int) (h : List SessionExpiry) :
    List SessionExpiry × List String :=
  collectExpiredGo now h.length h

/-- `delete(s.engine.sessions, sessionID)` on the modelled sessions map. -/
def deleteSession (m : String → Option Types.Session) (id : String) :
    String → Option Types.Session :=
  fun k => if k = id then none else m k

/-- One iteration of the eviction loop of `cleanup` (cleanup_scheduler.go
lines 135-140): look the collected session id up in the (possibly already
mutated) engine map, re-check the session's actual expiry with
`sess.IsExpired()` (which reads the clock again — passed here as `now`) and
delete it only if it is still expired. -/
def evictStep (now : Int) (acc : String → Option Types.Session) (id : String) :
    String → Option Types.Session :=
  match acc id with
  | some sess => if sess.IsExpired now then deleteSession acc id else acc
  | none => acc

/-- The eviction phase of `cleanup` (cleanup_scheduler.go lines 133-142):
the loop `for _, sessionID := range toRemove` applied to the engine's
session map. -/
def removeExpiredSessions (now : Int) (sessions : String → Option Types.Session)
    (toRemove : List String) : String → Option Types.Session :=
  toRemove.foldl (evictStep now) sessions

/-- Embedding of `SessionCleanupScheduler.cleanup` (cleanup_scheduler.go
lines 118-143): `now` is the clock read at line 119 that bounds which heap
entries are due; `nowEvict` is the (slightly later) clock read inside
`Session.IsExpired` during the re-check.  Returns the remaining heap and
the updated engine session map. -/
def cleanup (now nowEvict : Int) (h : List SessionExpiry)
    (sessions : String → Option Types.Session) :
    List SessionExpiry × (String → Option Types.Session) :=
  let p := collectExpired now h
  (p.1, removeExpiredSessions nowEvict sessions p.2)

end Engine

/-! ## Binary codecs: the WAL-entry and snapshot-header codec of `pkg/codec`
(the implementation bundled with codec_test.go).  Byte strings are
`List Nat`; each multi-byte integer field is written little-endian with
`binary.LittleEndian`. -/

namespace Codec

/-- `binary.LittleEndian.PutUint16`: the two little-endian bytes of
`n % 2 ^ 16`. -/
def putUint16LE (n : Nat) : List Nat :=
  [n % 256, n / 256 % 256]

/-- `binary.LittleEndian.PutUint32`: the four little-endian bytes of
`n % 2 ^ 32`. -/
def putUint32LE (n : Nat) : List Nat :=
  [n % 256, n / 256 % 256, n / 65536 % 256, n / 16777216 % 256]

/-- `binary.LittleEndian.PutUint64`: the eight little-endian bytes of
`n % 2 ^ 64`. -/
def putUint64LE (n : Nat) : List Nat :=
  [n % 256, n / 256 % 256, n / 65536 % 256, n / 16777216 % 256,
   n / 4294967296 % 256, n / 1099511627776 % 256,
   n / 281474976710656 % 256, n / 72057594037927936 % 256]

/-- `binary.LittleEndian.Uint16` on the first two bytes of a stream. -/
def readUint16LE : List Nat → Nat
  | b0 :: b1 :: _ => b0 + 256 * b1
  | _ => 0

/-- `binary.LittleEndian.Uint32` on the first four bytes of a stream. -/
def readUint32LE : List Nat → Nat
  | b0 :: b1 :: b2 :: b3 :: _ => b0 + 256 * b1 + 65536 * b2 + 16777216 * b3
  | _ => 0

/-- `binary.LittleEndian.Uint64` on the first eight bytes of a stream. -/
def readUint64LE : List Nat → Nat
  | b0 :: b1 :: b2 :: b3 :: b4 :: b5 :: b6 :: b7 :: _ =>
      b0 + 256 * b1 + 65536 * b2 + 16777216 * b3 + 4294967296 * b4 +
        1099511627776 * b5 + 281474976710656 * b6 + 72057594037927936 * b7
  | _ => 0

/-- The codec `WALEntry` struct (an op byte and an opaque payload). -/
structure WALEntry where
  Op : Nat
  Payload : List Nat
deriving Repr, DecidableEq

/-- Embedding of the codec `EncodeWALEntry` (the binary WAL encoding bundled
with codec_test.go): `json.Marshal(payload)` is Go standard library and is
treated as the resulting opaque byte string `payloadBytes`; the function
then writes `[1 byte op][4 bytes little-endian payload length][payload]`. -/
def EncodeWALEntry (op : Nat) (payloadBytes : List Nat) : List Nat :=
  op % 256 :: (putUint32LE payloadBytes.length ++ payloadBytes)

/-- Embedding of the codec `DecodeWALEntry`: the `io.Reader` is modelled as
the byte stream `input`; a failed `io.ReadFull`/`binary.Read` (not enough
bytes) is `none`; on success the decoded entry and the unconsumed remainder
of the stream are returned. -/
def DecodeWALEntry (input : List Nat) : Option (WALEntry × List Nat) :=
  match input with
  | [] => none
  | op :: rest =>
    if 4 ≤ rest.length then
      let length := readUint32LE (rest.take 4)
      let rest2 := rest.drop 4
      if length ≤ rest2.length then
        some (⟨op, rest2.take length⟩, rest2.drop length)
      else none
    else none

/-- The WAL entry layout the specification claims (§4.4): one type byte, an
8-byte LSN, an 8-byte unix-nanos timestamp, a 4-byte key length and the key,
a 4-byte payload length and the payload, and a trailing 8-byte xxHash64
over all preceding bytes.  This definition follows the spec's words (for
comparison with `EncodeWALEntry`); `hash` stands for the 64-bit xxHash64
value of the preceding bytes, whose internals the spec does not define. -/
def specWALEntryLayout (typ lsn ts : Nat) (key payload : List Nat)
    (hash : Nat) : List Nat :=
  typ % 256 ::
    (putUint64LE lsn ++ putUint64LE ts ++
      putUint32LE key.length ++ key ++
      putUint32LE payload.length ++ payload ++ putUint64LE hash)

/-- The codec `SnapshotHeader` struct (bundled with codec_test.go):
`Magic uint32`, `Version`/`VectorDim uint16`, six `uint64` counters, and an
`int64` creation timestamp. -/
structure SnapshotHeader where
  Magic : Nat
  Version : Nat
  VectorDim : Nat
  DocCount : Nat
  TUCount : Nat
  EntCount : Nat
  RelCount : Nat
  CommCount : Nat
  QueryCount : Nat
  CreatedAt : Int
deriving Repr, DecidableEq

/-- `const SnapshotMagic = 0x47494232` — the four ASCII bytes "GIB2" read as
a big-endian word. -/
def SnapshotMagic : Nat := 0x47494232

/-- Go's `uint64(i)` on an `int64`: the two's-complement bit pattern. -/
def int64ToUint64 (i : Int) : Nat :=
  (i % (2 : Int) ^ 64).toNat

/-- Go's `int64(n)` on a `uint64`: the two's-complement reinterpretation. -/
def uint64ToInt64 (n : Nat) : Int :=
  if n < 2 ^ 63 then (n : Int) else (n : Int) - 2 ^ 64

/-- Embedding of the codec `EncodeSnapshotHeader`: a fixed 64-byte buffer
holding the little-endian fields at offsets 0, 4, 6, 8, 16, 24, 32, 40, 48
and 56. -/
def EncodeSnapshotHeader (h : SnapshotHeader) : List Nat :=
  putUint32LE h.Magic ++ putUint16LE h.Version ++ putUint16LE h.VectorDim ++
    putUint64LE h.DocCount ++ putUint64LE h.TUCount ++ putUint64LE h.EntCount ++
    putUint64LE h.RelCount ++ putUint64LE h.CommCount ++
    putUint64LE h.QueryCount ++ putUint64LE (int64ToUint64 h.CreatedAt)

/-- Embedding of the codec `DecodeSnapshotHeader`: `io.ReadFull` into a
64-byte buffer fails (`none`) when fewer than 64 bytes are available; the
fields are read at their offsets (every field lies inside the first 64
bytes, so the reads are taken from `input` directly); a header whose magic
is not `SnapshotMagic` is rejected with an error (`none`), returning no
header. -/
def DecodeSnapshotHeader (input : List Nat) : Option SnapshotHeader :=
  if input.length < 64 then none
  else
    let h : SnapshotHeader :=
      { Magic := readUint32LE input
        Version := readUint16LE (input.drop 4)
        VectorDim := readUint16LE (input.drop 6)
        DocCount := readUint64LE (input.drop 8)
        TUCount := readUint64LE (input.drop 16)
        EntCount := readUint64LE (input.drop 24)
        RelCount := readUint64LE (input.drop 32)
        CommCount := readUint64LE (input.drop 40)
        QueryCount := readUint64LE (input.drop 48)
        CreatedAt := uint64ToInt64 (readUint64LE (input.drop 56)) }
    if h.Magic ≠ SnapshotMagic then none else some h

end Codec

/-! ## `pkg/backup` snapshot reader, modelled from the spec. -/

namespace Backup

/-- The four ASCII bytes of the magic `GRAM` (0x4752414D). -/
def gramMagic : List Nat :=
  [0x47, 0x52, 0x41, 0x4D]

/-- Modelled from the spec: the backup package's snapshot reader
(`NewSnapshotReader`; its implementation file is not among the provided
sources — only backup_test.go is).  Per the spec, the reader opens the
file, reads and validates the 4-byte magic `GRAM` (0x4752414D), and fails
with an error for any different magic, loading no snapshot state; on
success it goes on to the rest of the stream (returned here). -/
def NewSnapshotReader (file : List Nat) : Option (List Nat) :=
  if file.take 4 = gramMagic then some (file.drop 4) else none

end Backup

end Gibram

namespace Gibram

namespace Simd

/-- The blocked-plus-remainder accumulation of the widened cosine kernel
computes the same fold as the scalar loop (both apply `cosineStep` at every
index in increasing order). -/
theorem cosineSumsAVX2_eq_foldl (ps : List (ℚ × ℚ)) (acc : ℚ × ℚ × ℚ) :
    cosineSumsAVX2 ps acc = List.foldl cosineStep acc ps := by
  induction ps, acc using cosineSumsAVX2.induct with
  | case1 p0 p1 p2 p3 p4 p5 p6 p7 rest acc ih =>
      rw [cosineSumsAVX2, ih]
      simp [List.foldl]
  | case2 ps acc h =>
      rw [cosineSumsAVX2]
      exact h

/-- Folding `cosineStep` accumulates the dot product and the two squared
norms of the zipped pairs on top of the initial triple. -/
theorem foldl_cosineStep (ps : List (ℚ × ℚ)) (d na nb : ℚ) :
    List.foldl cosineStep (d, na, nb) ps =
      (d + ((ps.map fun p => p.1 * p.2).sum),
       na + ((ps.map fun p => p.1 * p.1).sum),
       nb + ((ps.map fun p => p.2 * p.2).sum)) := by
  induction ps generalizing d na nb with
  | nil => simp
  | cons p ps ih =>
      simp only [List.foldl_cons, cosineStep, ih, List.map_cons, List.sum_cons]
      refine Prod.ext (by ring) (Prod.ext (by ring) (by ring))

/-- For vectors of equal length, the `normA` accumulated over the zipped
pairs is the squared norm of the first vector. -/
theorem zip_fst_sq_sum (a b : List ℚ) (h : a.length = b.length) :
    (((a.zip b).map fun p => p.1 * p.1).sum) = ((a.map fun x => x * x).sum) := by
  induction a generalizing b with
  | nil => simp
  | cons x a ih =>
      cases b with
      | nil => simp at h
      | cons y b =>
          simp only [List.zip_cons_cons, List.map_cons, List.sum_cons]
          rw [ih b (by simpa using h)]

/-- Symmetric statement for the second vector. -/
theorem zip_snd_sq_sum (a b : List ℚ) (h : a.length = b.length) :
    (((a.zip b).map fun p => p.2 * p.2).sum) = ((b.map fun x => x * x).sum) := by
  induction a generalizing b with
  | nil =>
      cases b with
      | nil => simp
      | cons y b => simp at h
  | cons x a ih =>
      cases b with
      | nil => simp at h
      | cons y b =>
          simp only [List.zip_cons_cons, List.map_cons, List.sum_cons]
          rw [ih b (by simpa using h)]

/-- Folding the squared-accumulation loop body over a vector adds the
mapped-square sum to the initial accumulator. -/
theorem foldl_sq (v : List ℚ) (acc : ℚ) :
    v.foldl (fun a x => a + x * x) acc = acc + ((v.map fun x => x * x).sum) := by
  induction v generalizing acc with
  | nil => simp
  | cons x v ih =>
      simp only [List.foldl_cons, List.map_cons, List.sum_cons, ih]
      ring

/-- `sumSq` is the mapped-square sum. -/
theorem sumSq_eq_map_sum (v : List ℚ) :
    sumSq v = ((v.map fun x => x * x).sum) := by
  rw [sumSq, foldl_sq]
  ring

/-- For equal-length vectors the `normA` accumulator computed by the cosine
loops equals `sumSq a`. -/
theorem cosine_normA (a b : List ℚ) (h : a.length = b.length) :
    (List.foldl cosineStep (0, 0, 0) (a.zip b)).2.1 = sumSq a := by
  rw [foldl_cosineStep, sumSq_eq_map_sum, zip_fst_sq_sum a b h]
  ring

/-- For equal-length vectors the `normB` accumulator computed by the cosine
loops equals `sumSq b`. -/
theorem cosine_normB (a b : List ℚ) (h : a.length = b.length) :
    (List.foldl cosineStep (0, 0, 0) (a.zip b)).2.2 = sumSq b := by
  rw [foldl_cosineStep, sumSq_eq_map_sum, zip_snd_sq_sum a b h]
  ring

/-- C5: For every f32 vector v, the cosine similarity of the all-zeros vector
with v is 0 (not NaN), in both the scalar and the SIMD code path; more
generally, whenever either argument has zero squared norm the result is 0.
(The kernels accumulate the squared norms exactly — products and sums of
zeros are exact in IEEE arithmetic — and return 0 from the
`normA == 0 || normB == 0` guard before any division happens.) -/
theorem cosine_zero_norm_eq_zero (sqrtFn : ℚ → ℚ) (avx2 : Bool) (a b : List ℚ)
    (h : sumSq a = 0 ∨ sumSq b = 0) :
    CosineSimilarity sqrtFn avx2 a b = 0 ∧
    cosineSimilarityScalar sqrtFn a b = 0 ∧
    cosineSimilarityAVX2 a b = 0 := by
  have hscalar : cosineSimilarityScalar sqrtFn a b = 0 := by
    rw [cosineSimilarityScalar]
    by_cases hl : a.length = b.length
    · rw [if_neg (by simpa using hl)]
      rw [if_pos (by rw [cosine_normA a b hl, cosine_normB a b hl]; exact h)]
    · rw [if_pos hl]
  have havx : cosineSimilarityAVX2 a b = 0 := by
    rw [cosineSimilarityAVX2]
    by_cases hl : a.length = b.length
    · rw [if_neg (by simpa using hl)]
      rw [if_pos (by
        rw [cosineSumsAVX2_eq_foldl, cosine_normA a b hl, cosine_normB a b hl]
        exact h)]
    · rw [if_pos hl]
  refine ⟨?_, hscalar, havx⟩
  rw [CosineSimilarity]
  by_cases hl : a.length = b.length
  · rw [if_neg (by simpa using hl)]
    by_cases hbig : avx2 = true ∧ 8 ≤ a.length
    · rw [if_pos hbig]
      exact havx
    · rw [if_neg hbig]
      exact hscalar
  · rw [if_pos hl]

/-- Witness for `cosine_zero_norm_eq_zero` at the zero vector `[0, 0]`
against `[1, 2]`. -/
theorem cosine_zero_norm_eq_zero_witness :
    (sumSq [0, 0] = 0 ∨ sumSq [(1 : ℚ), 2] = 0) ∧
    (CosineSimilarity (fun _ => 0) true [0, 0] [1, 2] = 0 ∧
     cosineSimilarityScalar (fun _ => 0) [0, 0] [1, 2] = 0 ∧
     cosineSimilarityAVX2 [0, 0] [1, 2] = 0) :=
  ⟨Or.inl (by norm_num [sumSq, List.foldl]),
   cosine_zero_norm_eq_zero (fun _ => 0) true [0, 0] [(1 : ℚ), 2]
     (Or.inl (by norm_num [sumSq, List.foldl]))⟩

/-- C8: The public distance-kernel dispatchers are total on mismatched
inputs: whenever the two vectors have different lengths, `CosineSimilarity`,
`EuclideanDistance` and `DotProduct` return 0 (the first guard of each
dispatcher). -/
theorem kernels_mismatched_lengths_return_zero (sqrtFn : ℚ → ℚ) (avx2 : Bool)
    (a b : List ℚ) (h : a.length ≠ b.length) :
    CosineSimilarity sqrtFn avx2 a b = 0 ∧
    EuclideanDistance sqrtFn avx2 a b = 0 ∧
    DotProduct avx2 a b = 0 := by
  refine ⟨?_, ?_, ?_⟩ <;>
    simp [CosineSimilarity, EuclideanDistance, DotProduct, h]

/-- Witness for `kernels_mismatched_lengths_return_zero` at `[1]` against
`[]`. -/
theorem kernels_mismatched_lengths_return_zero_witness :
    ([(1 : ℚ)].length ≠ ([] : List ℚ).length) ∧
    (CosineSimilarity (fun _ => 0) true [(1 : ℚ)] [] = 0 ∧
     EuclideanDistance (fun _ => 0) true [(1 : ℚ)] [] = 0 ∧
     DotProduct true [(1 : ℚ)] [] = 0) :=
  ⟨by simp,
   kernels_mismatched_lengths_return_zero (fun _ => 0) true [(1 : ℚ)] [] (by simp)⟩

/-- C1: the claim that the runtime-selected widened cosine path stays within
1e-5 of the scalar baseline FAILS on the code: `fastSqrt`
(distance_amd64.go lines 139-153) adapts the Quake-III inverse square root
but applies the magic-constant trick to `int64(x)` — the numeric value of
`x` truncated to an integer — instead of the IEEE-754 bit pattern of `x`,
so its output is astronomically far from `sqrt x`.  At
`a = b = [2,2,2,2,0,0,0,0]` (length 8, so an AVX2+FMA host selects the
widened path) the scalar kernel returns exactly 1 (`normA = normB = 16`,
`sqrt 16 = 4` is exact in IEEE arithmetic, modelled by `intSqrt`), while the
widened kernel computes `fastSqrt 16 ≈ -4.2e58` and returns about `9e-117`
(in Go the float32 conversion overflows the norm product to `+Inf` and the
division returns exactly 0) — either way the difference is about 1, far
above 1e-5.  The dispatcher conjunct shows `CosineSimilarity` indeed routes
this input to the widened kernel when the host has AVX2. -/
theorem cosineSimilarityAVX2_fastSqrt_divergence :
    CosineSimilarity intSqrt true [2, 2, 2, 2, 0, 0, 0, 0] [2, 2, 2, 2, 0, 0, 0, 0] =
      cosineSimilarityAVX2 [2, 2, 2, 2, 0, 0, 0, 0] [2, 2, 2, 2, 0, 0, 0, 0] ∧
    1 / 100000 <
      |cosineSimilarityAVX2 [2, 2, 2, 2, 0, 0, 0, 0] [2, 2, 2, 2, 0, 0, 0, 0] -
        cosineSimilarityScalar intSqrt [2, 2, 2, 2, 0, 0, 0, 0] [2, 2, 2, 2, 0, 0, 0, 0]| := by
  have hs : cosineSimilarityScalar intSqrt [2, 2, 2, 2, 0, 0, 0, 0] [2, 2, 2, 2, 0, 0, 0, 0]
      = 1 := by
    norm_num [cosineSimilarityScalar, cosineStep, List.zip, List.zipWith, List.foldl, intSqrt,
      show Int.toNat 16 = 16 from rfl]
  have ha : cosineSimilarityAVX2 [2, 2, 2, 2, 0, 0, 0, 0] [2, 2, 2, 2, 0, 0, 0, 0]
      = 1 / 111518071358950395045709552850531025077331090538045628854394645092445009448608279645641846088655537768342229831251876 := by
    norm_num [cosineSimilarityAVX2, cosineSumsAVX2, cosineStep, float32Sqrt, fastSqrt,
      List.zip, List.zipWith, List.foldl]
  refine ⟨by norm_num [CosineSimilarity], ?_⟩
  rw [hs, ha, abs_of_neg (by norm_num)]
  norm_num

end Simd

namespace Types

/-- C2: For every session with a positive quota and current count, the
quota pre-check for adding `d` succeeds exactly when `current + d ≤ max`,
and fails with exactly the matching quota error when `current + d > max` —
for entities, relationships, documents and memory bytes alike.  In
particular an insert that lands exactly on the cap passes the check and
the next one fails. -/
theorem check_quota_succeeds_iff (s : Session) (d : Int)
    (hE : 0 < s.MaxEntities) (hR : 0 < s.MaxRelationships)
    (hD : 0 < s.MaxDocuments) (hM : 0 < s.MaxMemoryBytes) :
    (s.CheckEntityQuota d = none ↔ s.EntityCount + d ≤ s.MaxEntities) ∧
    (s.CheckEntityQuota d = some .entityQuotaExceeded ↔
      s.MaxEntities < s.EntityCount + d) ∧
    (s.CheckRelationshipQuota d = none ↔
      s.RelationshipCount + d ≤ s.MaxRelationships) ∧
    (s.CheckRelationshipQuota d = some .relationshipQuotaExceeded ↔
      s.MaxRelationships < s.RelationshipCount + d) ∧
    (s.CheckDocumentQuota d = none ↔ s.DocumentCount + d ≤ s.MaxDocuments) ∧
    (s.CheckDocumentQuota d = some .documentQuotaExceeded ↔
      s.MaxDocuments < s.DocumentCount + d) ∧
    (s.CheckMemoryQuota d = none ↔ s.MemoryBytes + d ≤ s.MaxMemoryBytes) ∧
    (s.CheckMemoryQuota d = some .memoryQuotaExceeded ↔
      s.MaxMemoryBytes < s.MemoryBytes + d) := by
  refine ⟨?_, ?_, ?_, ?_, ?_, ?_, ?_, ?_⟩ <;>
    simp only [Session.CheckEntityQuota, Session.CheckRelationshipQuota,
      Session.CheckDocumentQuota, Session.CheckMemoryQuota] <;>
    split <;>
    simp_all

/-- Witness for `check_quota_succeeds_iff`: a session with all caps 3,
entity count at the cap after adding 1 more unit would exceed it. -/
theorem check_quota_succeeds_iff_witness :
    (0 < (3 : Int) ∧ 0 < (3 : Int) ∧ 0 < (3 : Int) ∧ 0 < (3 : Int)) ∧
    (({ ID := "s1", CreatedAt := 0, LastAccess := 0, TTL := 0, IdleTTL := 0,
        MaxEntities := 3, MaxRelationships := 3, MaxDocuments := 3,
        MaxMemoryBytes := 3, EntityCount := 2, RelationshipCount := 3,
        DocumentCount := 0, MemoryBytes := 1 : Session }.CheckEntityQuota 1 = none ↔
        (2 : Int) + 1 ≤ 3)) := by
  have h := (check_quota_succeeds_iff
    { ID := "s1", CreatedAt := 0, LastAccess := 0, TTL := 0, IdleTTL := 0,
      MaxEntities := 3, MaxRelationships := 3, MaxDocuments := 3,
      MaxMemoryBytes := 3, EntityCount := 2, RelationshipCount := 3,
      DocumentCount := 0, MemoryBytes := 1 } 1
    (by norm_num) (by norm_num) (by norm_num) (by norm_num)).1
  exact ⟨by norm_num, h⟩

/-- C10: A quota cap of zero means unlimited: when the cap field is 0 the
corresponding check succeeds for every requested increment, whatever the
current count. -/
theorem quota_zero_means_unlimited (s : Session) (d : Int) :
    (s.MaxEntities = 0 → s.CheckEntityQuota d = none) ∧
    (s.MaxRelationships = 0 → s.CheckRelationshipQuota d = none) ∧
    (s.MaxDocuments = 0 → s.CheckDocumentQuota d = none) ∧
    (s.MaxMemoryBytes = 0 → s.CheckMemoryQuota d = none) := by
  refine ⟨fun h => ?_, fun h => ?_, fun h => ?_, fun h => ?_⟩ <;>
    simp only [Session.CheckEntityQuota, Session.CheckRelationshipQuota,
      Session.CheckDocumentQuota, Session.CheckMemoryQuota] <;>
    rw [if_neg (by omega)]

/-- Witness for `quota_zero_means_unlimited` on an unlimited session whose
counts are already enormous. -/
theorem quota_zero_means_unlimited_witness :
    ({ ID := "u", CreatedAt := 0, LastAccess := 0, TTL := 0, IdleTTL := 0,
       MaxEntities := 0, MaxRelationships := 0, MaxDocuments := 0,
       MaxMemoryBytes := 0, EntityCount := 1000000, RelationshipCount := 1000000,
       DocumentCount := 1000000, MemoryBytes := 1000000 : Session }.CheckEntityQuota
         1000000 = none) :=
  (quota_zero_means_unlimited
    { ID := "u", CreatedAt := 0, LastAccess := 0, TTL := 0, IdleTTL := 0,
      MaxEntities := 0, MaxRelationships := 0, MaxDocuments := 0,
      MaxMemoryBytes := 0, EntityCount := 1000000, RelationshipCount := 1000000,
      DocumentCount := 1000000, MemoryBytes := 1000000 } 1000000).1 rfl

/-- C6: For every session (with the non-negative timestamps every session
created by `NewSession`/`Touch` has), the next-expiration time is the
earlier of the absolute deadline `CreatedAt + TTL` (when `TTL > 0`) and the
idle deadline `LastAccess + IdleTTL` (when `IdleTTL > 0`), and 0 when
neither TTL is set; and the session is reported expired at time `now`
exactly when at least one of those set deadlines is strictly before
`now`. -/
theorem getExpireAt_and_isExpired (s : Session) (now : Int)
    (hc : 0 ≤ s.CreatedAt) :
    (s.TTL ≤ 0 ∧ s.IdleTTL ≤ 0 → s.GetExpireAt = 0) ∧
    (0 < s.TTL ∧ s.IdleTTL ≤ 0 → s.GetExpireAt = s.CreatedAt + s.TTL) ∧
    (s.TTL ≤ 0 ∧ 0 < s.IdleTTL → s.GetExpireAt = s.LastAccess + s.IdleTTL) ∧
    (0 < s.TTL ∧ 0 < s.IdleTTL →
      s.GetExpireAt = min (s.CreatedAt + s.TTL) (s.LastAccess + s.IdleTTL)) ∧
    (s.IsExpired now = true ↔
      (0 < s.TTL ∧ s.CreatedAt + s.TTL < now) ∨
      (0 < s.IdleTTL ∧ s.LastAccess + s.IdleTTL < now)) := by
  refine ⟨fun h => ?_, fun h => ?_, fun h => ?_, fun h => ?_, ?_⟩ <;>
    simp only [Session.GetExpireAt, Session.IsExpired]
  · split_ifs <;> omega
  · split_ifs <;> omega
  · split_ifs <;> omega
  · rcases le_or_lt (s.CreatedAt + s.TTL) (s.LastAccess + s.IdleTTL) with hle | hlt
    · rw [min_eq_left hle]
      split_ifs <;> omega
    · rw [min_eq_right (le_of_lt hlt)]
      split_ifs <;> omega
  · split_ifs with h1 h2
    · exact iff_of_true rfl (Or.inl h1)
    · exact iff_of_true rfl (Or.inr h2)
    · exact iff_of_false (by simp) (by omega)

/-- Witness for `getExpireAt_and_isExpired`: both TTLs set, the idle
deadline earlier, evaluated at a time past it. -/
theorem getExpireAt_and_isExpired_witness :
    (0 ≤ (100 : Int)) ∧
    (({ ID := "t", CreatedAt := 100, LastAccess := 150, TTL := 1000,
        IdleTTL := 200, MaxEntities := 0, MaxRelationships := 0,
        MaxDocuments := 0, MaxMemoryBytes := 0, EntityCount := 0,
        RelationshipCount := 0, DocumentCount := 0,
        MemoryBytes := 0 : Session }.IsExpired 400 = true ↔
      (0 < (1000 : Int) ∧ (100 : Int) + 1000 < 400) ∨
      (0 < (200 : Int) ∧ (150 : Int) + 200 < 400))) := by
  have h := (getExpireAt_and_isExpired
    { ID := "t", CreatedAt := 100, LastAccess := 150, TTL := 1000,
      IdleTTL := 200, MaxEntities := 0, MaxRelationships := 0,
      MaxDocuments := 0, MaxMemoryBytes := 0, EntityCount := 0,
      RelationshipCount := 0, DocumentCount := 0, MemoryBytes := 0 } 400
    (by norm_num)).2.2.2.2
  exact ⟨by norm_num, h⟩

/-- The counter fields are all non-negative. -/
def Session.CountersNonneg (s : Session) : Prop :=
  0 ≤ s.EntityCount ∧ 0 ≤ s.RelationshipCount ∧ 0 ≤ s.DocumentCount ∧
    0 ≤ s.MemoryBytes

/-- A single counter mutation with a non-negative argument preserves
non-negativity of all four counters (decrements clamp at zero, increments
add a non-negative amount). -/
theorem applyCounterOp_nonneg (s : Session) (op : CounterOp)
    (hs : s.CountersNonneg) (harg : 0 ≤ op.arg) :
    (applyCounterOp s op).CountersNonneg := by
  obtain ⟨h1, h2, h3, h4⟩ := hs
  cases op <;>
    simp only [applyCounterOp, CounterOp.arg, Session.IncrementEntity,
      Session.DecrementEntity, Session.IncrementRelationship,
      Session.DecrementRelationship, Session.IncrementDocument,
      Session.DecrementDocument, Session.AddMemory, Session.SubMemory,
      Session.CountersNonneg] at * <;>
    constructor <;>
    try constructor <;> try constructor
  all_goals try split
  all_goals omega

/-- C9: Session usage counters are never negative: starting from any state
with non-negative counters (as `NewSession` produces), after any sequence of
increment/decrement and memory add/sub operations with non-negative
arguments, each of the four counters is still at least 0, because every
decrement clamps at zero. -/
theorem counters_never_negative (s : Session) (ops : List CounterOp)
    (hs : s.CountersNonneg) (hargs : ∀ op ∈ ops, 0 ≤ op.arg) :
    (applyCounterOps s ops).CountersNonneg := by
  induction ops generalizing s with
  | nil => exact hs
  | cons op ops ih =>
      rw [applyCounterOps, List.foldl_cons]
      exact ih (applyCounterOp s op)
        (applyCounterOp_nonneg s op hs (hargs op (List.mem_cons_self op ops)))
        (fun o ho => hargs o (List.mem_cons_of_mem op ho))

/-- Witness for `counters_never_negative`: a fresh-style session hit by
over-large decrements interleaved with increments. -/
theorem counters_never_negative_witness :
    (applyCounterOps
      { ID := "c", CreatedAt := 0, LastAccess := 0, TTL := 0, IdleTTL := 0,
        MaxEntities := 0, MaxRelationships := 0, MaxDocuments := 0,
        MaxMemoryBytes := 0, EntityCount := 0, RelationshipCount := 0,
        DocumentCount := 0, MemoryBytes := 0 }
      [.incEntity 2, .decEntity 5, .addMemory 7, .subMemory 9,
       .incDocument 1, .decDocument 3, .decRelationship 4]).CountersNonneg := by
  refine counters_never_negative _ _ ⟨by norm_num, by norm_num, by norm_num, by norm_num⟩ ?_
  intro op hop
  fin_cases hop <;> norm_num [CounterOp.arg]

end Types

namespace Engine

/-- `heap.Pop` only fails on the empty heap. -/
theorem popMinExpiry_eq_none (h : List SessionExpiry)
    (hp : popMinExpiry h = none) : h = [] := by
  cases h with
  | nil => rfl
  | cons e es =>
      rcases hpm : popMinExpiry es with _ | ⟨m, rest⟩ <;>
        simp only [popMinExpiry, hpm] at hp
      · exact Option.noConfusion hp
      · split at hp <;> exact Option.noConfusion hp

/-- Characterisation of `heap.Pop` on a non-empty heap: the popped element
was in the heap and is a minimum by `expireAt`, exactly one element is
removed, every original element is the popped one or still present, and the
remainder is contained in the original. -/
theorem popMinExpiry_spec :
    ∀ (h : List SessionExpiry) (m : SessionExpiry) (rest : List SessionExpiry),
      popMinExpiry h = some (m, rest) →
      m ∈ h ∧ (∀ x ∈ h, m.expireAt ≤ x.expireAt) ∧
      rest.length + 1 = h.length ∧
      (∀ x ∈ h, x = m ∨ x ∈ rest) ∧ (∀ x ∈ rest, x ∈ h) := by
  intro h
  induction h with
  | nil => intro m rest hp; exact Option.noConfusion hp
  | cons e es ih =>
      intro m rest hp
      rcases hpm : popMinExpiry es with _ | ⟨m', rest'⟩
      · have hes : es = [] := popMinExpiry_eq_none es hpm
        subst hes
        simp only [popMinExpiry, Option.some.injEq, Prod.mk.injEq] at hp
        obtain ⟨rfl, rfl⟩ := hp
        refine ⟨List.mem_cons_self _ _, ?_, by simp, ?_, by simp⟩
        · intro x hx
          simp only [List.mem_cons, List.not_mem_nil, or_false] at hx
          exact hx ▸ le_refl _
        · intro x hx
          simp only [List.mem_cons, List.not_mem_nil, or_false] at hx
          exact Or.inl hx
      · obtain ⟨ihmem, ihmin, ihlen, ihcov, ihsub⟩ := ih m' rest' hpm
        simp only [popMinExpiry, hpm] at hp
        split at hp
        · rename_i hlt
          simp only [Option.some.injEq, Prod.mk.injEq] at hp
          obtain ⟨rfl, rfl⟩ := hp
          refine ⟨List.mem_cons_of_mem _ ihmem, ?_, by simpa using ihlen, ?_, ?_⟩
          · intro x hx
            rcases List.mem_cons.mp hx with rfl | hx
            · exact le_of_lt hlt
            · exact ihmin x hx
          · intro x hx
            rcases List.mem_cons.mp hx with rfl | hx
            · exact Or.inr (List.mem_cons_self _ _)
            · rcases ihcov x hx with hx2 | hx2
              · exact Or.inl hx2
              · exact Or.inr (List.mem_cons_of_mem _ hx2)
          · intro x hx
            rcases List.mem_cons.mp hx with rfl | hx
            · exact List.mem_cons_self _ _
            · exact List.mem_cons_of_mem _ (ihsub x hx)
        · rename_i hge
          simp only [Option.some.injEq, Prod.mk.injEq] at hp
          obtain ⟨rfl, rfl⟩ := hp
          refine ⟨List.mem_cons_self _ _, ?_, by simp, ?_,
            fun x hx => List.mem_cons_of_mem _ hx⟩
          · intro x hx
            rcases List.mem_cons.mp hx with rfl | hx
            · exact le_refl _
            · exact le_trans (not_lt.mp hge) (ihmin x hx)
          · intro x hx
            rcases List.mem_cons.mp hx with rfl | hx
            · exact Or.inl rfl
            · exact Or.inr hx

/-- The collection loop pops exactly the due entries: run with enough fuel,
every heap entry with `expireAt ≤ now` ends up in `toRemove`, and every
collected id comes from a due entry. -/
theorem collectExpiredGo_spec (now : Int) :
    ∀ (n : Nat) (h : List SessionExpiry), h.length ≤ n →
      (∀ x ∈ h, x.expireAt ≤ now →
        x.sessionID ∈ (collectExpiredGo now n h).2) ∧
      (∀ id ∈ (collectExpiredGo now n h).2,
        ∃ x, x ∈ h ∧ x.sessionID = id ∧ x.expireAt ≤ now) := by
  intro n
  induction n with
  | zero =>
      intro h hlen
      have : h = [] := List.length_eq_zero.mp (Nat.le_zero.mp hlen)
      subst this
      simp [collectExpiredGo]
  | succ n ih =>
      intro h hlen
      rcases hpm : popMinExpiry h with _ | ⟨m, rest⟩
      · have : h = [] := popMinExpiry_eq_none h hpm
        subst this
        simp [collectExpiredGo, hpm]
      · obtain ⟨hmem, hmin, hlenp, hcov, hsub⟩ := popMinExpiry_spec h m rest hpm
        by_cases hdue : m.expireAt ≤ now
        · simp only [collectExpiredGo, hpm, if_pos hdue]
          obtain ⟨ih1, ih2⟩ := ih rest (by omega)
          constructor
          · intro x hx hxdue
            rcases hcov x hx with rfl | hx2
            · exact List.mem_cons_self _ _
            · exact List.mem_cons_of_mem _ (ih1 x hx2 hxdue)
          · intro id hid
            rcases List.mem_cons.mp hid with rfl | hid
            · exact ⟨m, hmem, rfl, hdue⟩
            · obtain ⟨x, hx, hxid, hxdue⟩ := ih2 id hid
              exact ⟨x, hsub x hx, hxid, hxdue⟩
        · simp only [collectExpiredGo, hpm, if_neg hdue]
          refine ⟨?_, by simp⟩
          intro x hx hxdue
          exact absurd (le_trans (hmin x hx) hxdue) hdue

/-- The eviction phase never removes a session whose re-checked expiry
predicate is false: a refreshed (no longer expired) session survives the
pass with its entry intact. -/
theorem removeExpiredSessions_keeps_unexpired (now : Int) :
    ∀ (ids : List String) (sessions : String → Option Types.Session)
      (id : String) (sess : Types.Session),
      sessions id = some sess → sess.IsExpired now = false →
      removeExpiredSessions now sessions ids id = some sess := by
  intro ids
  induction ids with
  | nil =>
      intro sessions id sess hid hexp
      simpa [removeExpiredSessions] using hid
  | cons j tl ih =>
      intro sessions id sess hid hexp
      rw [removeExpiredSessions, List.foldl_cons]
      rcases hj : sessions j with _ | sj
      · have he : evictStep now sessions j = sessions := by
          simp only [evictStep, hj]
        rw [he]
        exact ih sessions id sess hid hexp
      · by_cases hsj : sj.IsExpired now = true
        · have he : evictStep now sessions j = deleteSession sessions j := by
            simp only [evictStep, hj, if_pos hsj]
          rw [he]
          refine ih _ id sess ?_ hexp
          by_cases hij : id = j
          · subst hij
            rw [hid] at hj
            injection hj with hjj
            subst hjj
            rw [hexp] at hsj
            exact Bool.noConfusion hsj
          · simp only [deleteSession, if_neg hij]
            exact hid
        · have he : evictStep now sessions j = sessions := by
            simp only [evictStep, hj, if_neg hsj]
          rw [he]
          exact ih sessions id sess hid hexp

/-- The eviction phase removes an entry only when the stored session's
re-checked expiry predicate holds (or the entry was already absent). -/
theorem removeExpiredSessions_deletes_only_expired (now : Int) :
    ∀ (ids : List String) (sessions : String → Option Types.Session)
      (id : String),
      removeExpiredSessions now sessions ids id = none →
      sessions id = none ∨
        ∃ sess, sessions id = some sess ∧ sess.IsExpired now = true := by
  intro ids
  induction ids with
  | nil =>
      intro sessions id hnone
      exact Or.inl (by simpa [removeExpiredSessions] using hnone)
  | cons j tl ih =>
      intro sessions id hnone
      rw [removeExpiredSessions, List.foldl_cons] at hnone
      have hstep := ih (evictStep now sessions j) id hnone
      rcases hj : sessions j with _ | sj
      · have he : evictStep now sessions j = sessions := by
          simp only [evictStep, hj]
        rw [he] at hstep
        exact hstep
      · by_cases hsj : sj.IsExpired now = true
        · have he : evictStep now sessions j = deleteSession sessions j := by
            simp only [evictStep, hj, if_pos hsj]
          rw [he] at hstep
          by_cases hij : id = j
          · subst hij
            exact Or.inr ⟨sj, hj, hsj⟩
          · have hd : deleteSession sessions j id = sessions id := by
              simp only [deleteSession, if_neg hij]
            rw [hd] at hstep
            exact hstep
        · have he : evictStep now sessions j = sessions := by
            simp only [evictStep, hj, if_neg hsj]
          rw [he] at hstep
          exact hstep

/-- C7: When the cleanup pass fires it pops every heap entry whose
`expireAt` is due at the collection-time clock `now` (and only due
entries), and a popped session is deleted from the engine's session map
only if its re-checked expiry predicate still holds at eviction time
`nowEvict`; a session whose last-access was refreshed (so it is no longer
expired) is never evicted in that pass. -/
theorem cleanup_scheduler_spec (now nowEvict : Int) (h : List SessionExpiry)
    (sessions : String → Option Types.Session) :
    (∀ x ∈ h, x.expireAt ≤ now → x.sessionID ∈ (collectExpired now h).2) ∧
    (∀ id ∈ (collectExpired now h).2,
      ∃ x, x ∈ h ∧ x.sessionID = id ∧ x.expireAt ≤ now) ∧
    (∀ id sess, sessions id = some sess → sess.IsExpired nowEvict = false →
      (cleanup now nowEvict h sessions).2 id = some sess) ∧
    (∀ id, (cleanup now nowEvict h sessions).2 id = none →
      sessions id = none ∨
        ∃ sess, sessions id = some sess ∧ sess.IsExpired nowEvict = true) := by
  obtain ⟨h1, h2⟩ := collectExpiredGo_spec now h.length h (le_refl _)
  refine ⟨h1, h2, ?_, ?_⟩
  · intro id sess hid hexp
    exact removeExpiredSessions_keeps_unexpired nowEvict _ sessions id sess hid hexp
  · intro id hnone
    exact removeExpiredSessions_deletes_only_expired nowEvict _ sessions id hnone

/-- Witness for `cleanup_scheduler_spec`: a heap with a due entry "a" and a
not-yet-due entry "b"; session "a" is still expired at eviction time and is
removed, session "b" was refreshed (not expired) and survives. -/
theorem cleanup_scheduler_spec_witness :
    ((⟨"a", 5⟩ : SessionExpiry) ∈ [(⟨"a", 5⟩ : SessionExpiry), ⟨"b", 50⟩] ∧
      (5 : Int) ≤ 10) ∧
    "a" ∈ (collectExpired 10 [(⟨"a", 5⟩ : SessionExpiry), ⟨"b", 50⟩]).2 ∧
    ((fun id => if id = "b" then
        some ({ ID := "b", CreatedAt := 0, LastAccess := 9, TTL := 0,
                IdleTTL := 100, MaxEntities := 0, MaxRelationships := 0,
                MaxDocuments := 0, MaxMemoryBytes := 0, EntityCount := 0,
                RelationshipCount := 0, DocumentCount := 0,
                MemoryBytes := 0 } : Types.Session)
      else none) "b" =
        some { ID := "b", CreatedAt := 0, LastAccess := 9, TTL := 0,
               IdleTTL := 100, MaxEntities := 0, MaxRelationships := 0,
               MaxDocuments := 0, MaxMemoryBytes := 0, EntityCount := 0,
               RelationshipCount := 0, DocumentCount := 0, MemoryBytes := 0 } ∧
      Types.Session.IsExpired
        { ID := "b", CreatedAt := 0, LastAccess := 9, TTL := 0,
          IdleTTL := 100, MaxEntities := 0, MaxRelationships := 0,
          MaxDocuments := 0, MaxMemoryBytes := 0, EntityCount := 0,
          RelationshipCount := 0, DocumentCount := 0, MemoryBytes := 0 } 10 = false) ∧
    (cleanup 10 10 [(⟨"a", 5⟩ : SessionExpiry), ⟨"b", 50⟩]
      (fun id => if id = "b" then
        some ({ ID := "b", CreatedAt := 0, LastAccess := 9, TTL := 0,
                IdleTTL := 100, MaxEntities := 0, MaxRelationships := 0,
                MaxDocuments := 0, MaxMemoryBytes := 0, EntityCount := 0,
                RelationshipCount := 0, DocumentCount := 0,
                MemoryBytes := 0 } : Types.Session)
      else none)).2 "b" =
        some { ID := "b", CreatedAt := 0, LastAccess := 9, TTL := 0,
               IdleTTL := 100, MaxEntities := 0, MaxRelationships := 0,
               MaxDocuments := 0, MaxMemoryBytes := 0, EntityCount := 0,
               RelationshipCount := 0, DocumentCount := 0, MemoryBytes := 0 } := by
  have hspec := cleanup_scheduler_spec 10 10
    [(⟨"a", 5⟩ : SessionExpiry), ⟨"b", 50⟩]
    (fun id => if id = "b" then
      some ({ ID := "b", CreatedAt := 0, LastAccess := 9, TTL := 0,
              IdleTTL := 100, MaxEntities := 0, MaxRelationships := 0,
              MaxDocuments := 0, MaxMemoryBytes := 0, EntityCount := 0,
              RelationshipCount := 0, DocumentCount := 0,
              MemoryBytes := 0 } : Types.Session)
    else none)
  refine ⟨⟨by simp, by norm_num⟩, ?_, ⟨rfl, by decide⟩, ?_⟩
  · exact hspec.1 ⟨"a", 5⟩ (by simp) (by norm_num)
  · exact hspec.2.2.1 "b" _ rfl (by decide)

end Engine

namespace Codec

/-- `putUint32LE` always writes four bytes. -/
theorem putUint32LE_length (n : Nat) : (putUint32LE n).length = 4 := by
  simp [putUint32LE]

/-- Reading back a little-endian 32-bit word recovers any value below
`2 ^ 32`. -/
theorem readUint32LE_putUint32LE (n : Nat) (h : n < 2 ^ 32) :
    readUint32LE (putUint32LE n) = n := by
  simp only [putUint32LE, readUint32LE]
  omega

/-- C3 counterexample: the WAL entry encoder in the sources does NOT emit
the spec layout `[type][8-byte LSN][8-byte timestamp][key-len][key]
[payload-len][payload][8-byte xxHash64]`.  Already on the one-byte payload
`"1"` with op 1, the encoded entry is 6 bytes long, while any entry in the
claimed layout is at least 33 bytes long (1 + 8 + 8 + 4 + 4 + 8 plus key and
payload), whatever the field values and hash. -/
theorem encodeWALEntry_not_spec_layout :
    ¬ ∃ (typ lsn ts : Nat) (key payload : List Nat) (hash : Nat),
        EncodeWALEntry 1 [49] = specWALEntryLayout typ lsn ts key payload hash := by
  rintro ⟨typ, lsn, ts, key, payload, hash, heq⟩
  have hlen := congrArg List.length heq
  simp [EncodeWALEntry, specWALEntryLayout, putUint32LE, putUint64LE] at hlen

/-- C3 (amended): every WAL entry written by the codec `EncodeWALEntry` is
laid out as one op byte, a 4-byte little-endian payload length, and the
(JSON-marshalled) payload bytes — with no LSN, timestamp, key, or checksum
field — and `DecodeWALEntry` decodes such an entry back to the same op and
payload, leaving the rest of the stream unconsumed. -/
theorem encodeWALEntry_layout_roundtrip (op : Nat) (payloadBytes extra : List Nat)
    (hop : op < 256) (hlen : payloadBytes.length < 2 ^ 32) :
    EncodeWALEntry op payloadBytes =
      op :: (putUint32LE payloadBytes.length ++ payloadBytes) ∧
    DecodeWALEntry (EncodeWALEntry op payloadBytes ++ extra) =
      some (⟨op, payloadBytes⟩, extra) := by
  have h4 : (putUint32LE payloadBytes.length).length = 4 := putUint32LE_length _
  constructor
  · rw [EncodeWALEntry, Nat.mod_eq_of_lt hop]
  · rw [EncodeWALEntry, Nat.mod_eq_of_lt hop]
    simp only [List.cons_append, List.append_assoc, DecodeWALEntry]
    rw [List.take_left' h4, List.drop_left' h4, readUint32LE_putUint32LE _ hlen,
      List.take_left, List.drop_left]
    rw [if_pos (by simp [putUint32LE]), if_pos (by simp)]

/-- Witness for `encodeWALEntry_layout_roundtrip` at op 7 and a three-byte
payload followed by a one-byte remainder. -/
theorem encodeWALEntry_layout_roundtrip_witness :
    ((7 : Nat) < 256 ∧ ([11, 22, 33] : List Nat).length < 2 ^ 32) ∧
    (EncodeWALEntry 7 [11, 22, 33] =
      7 :: (putUint32LE ([11, 22, 33] : List Nat).length ++ [11, 22, 33]) ∧
     DecodeWALEntry (EncodeWALEntry 7 [11, 22, 33] ++ [99]) =
      some (⟨7, [11, 22, 33]⟩, [99])) :=
  ⟨⟨by norm_num, by norm_num⟩,
   encodeWALEntry_layout_roundtrip 7 [11, 22, 33] [99] (by norm_num) (by norm_num)⟩

/-- C4 counterexample: the snapshot header codec in the sources uses the
magic `GIB2` (0x47494232), not `GRAM` (0x4752414D): a header it encodes
with its own `SnapshotMagic` starts with the little-endian bytes of `GIB2`,
which differ from the `GRAM` bytes, and `DecodeSnapshotHeader` REJECTS a
64-byte buffer that begins with `GRAM`. -/
theorem snapshot_magic_not_gram :
    (EncodeSnapshotHeader
        { Magic := SnapshotMagic, Version := 1, VectorDim := 0, DocCount := 0,
          TUCount := 0, EntCount := 0, RelCount := 0, CommCount := 0,
          QueryCount := 0, CreatedAt := 0 }).take 4 = [0x32, 0x42, 0x49, 0x47] ∧
    ([0x32, 0x42, 0x49, 0x47] : List Nat) ≠ Backup.gramMagic ∧
    DecodeSnapshotHeader (Backup.gramMagic ++ List.replicate 60 0) = none := by
  refine ⟨by decide, by decide, by decide⟩

/-- C4 (amended): snapshot headers written by the codec begin with the four
little-endian magic bytes of `GIB2` (0x47494232), and `DecodeSnapshotHeader`
validates the magic, failing with an error — returning no header — for any
input whose leading word differs (conversely, any header it does return
carries the valid magic); the backup-package snapshot reader (modelled from
the spec, whose magic is `GRAM`) likewise fails on any file whose first four
bytes are not `GRAM`, loading nothing. -/
theorem snapshot_header_magic_validation (h : SnapshotHeader)
    (input file : List Nat) (hdr : SnapshotHeader) :
    (EncodeSnapshotHeader h).length = 64 ∧
    (h.Magic = SnapshotMagic →
      (EncodeSnapshotHeader h).take 4 = [0x32, 0x42, 0x49, 0x47]) ∧
    (readUint32LE input ≠ SnapshotMagic → DecodeSnapshotHeader input = none) ∧
    (DecodeSnapshotHeader input = some hdr → hdr.Magic = SnapshotMagic) ∧
    (file.take 4 ≠ Backup.gramMagic → Backup.NewSnapshotReader file = none) := by
  refine ⟨?_, ?_, ?_, ?_, ?_⟩
  · simp [EncodeSnapshotHeader, putUint32LE, putUint16LE, putUint64LE]
  · intro hm
    have h4 : (putUint32LE h.Magic).length = 4 := putUint32LE_length _
    rw [EncodeSnapshotHeader]
    simp only [List.append_assoc]
    rw [List.take_left' h4, hm]
    decide
  · intro hm
    simp only [DecodeSnapshotHeader]
    by_cases hl : input.length < 64
    · rw [if_pos hl]
    · rw [if_neg hl, if_pos hm]
  · intro hdec
    simp only [DecodeSnapshotHeader] at hdec
    by_cases hl : input.length < 64
    · rw [if_pos hl] at hdec
      exact Option.noConfusion hdec
    · rw [if_neg hl] at hdec
      split at hdec
      · exact Option.noConfusion hdec
      · rename_i hm
        push_neg at hm
        injection hdec with hh
        rw [← hh]
        exact hm
  · intro hf
    rw [Backup.NewSnapshotReader, if_neg hf]

/-- Witness for `snapshot_header_magic_validation`: a GIB2-magic header
really starts with the GIB2 bytes; a stream whose leading word is not the
magic is rejected; a file not starting with `GRAM` is rejected by the
backup reader. -/
theorem snapshot_header_magic_validation_witness :
    (({ Magic := SnapshotMagic, Version := 1, VectorDim := 0, DocCount := 0,
        TUCount := 0, EntCount := 0, RelCount := 0, CommCount := 0,
        QueryCount := 0, CreatedAt := 0 } : SnapshotHeader).Magic = SnapshotMagic ∧
      (EncodeSnapshotHeader
        { Magic := SnapshotMagic, Version := 1, VectorDim := 0, DocCount := 0,
          TUCount := 0, EntCount := 0, RelCount := 0, CommCount := 0,
          QueryCount := 0, CreatedAt := 0 }).take 4 = [0x32, 0x42, 0x49, 0x47]) ∧
    (readUint32LE [9, 9, 9, 9] ≠ SnapshotMagic ∧
      DecodeSnapshotHeader [9, 9, 9, 9] = none) ∧
    (([1, 2, 3, 4, 5] : List Nat).take 4 ≠ Backup.gramMagic ∧
      Backup.NewSnapshotReader [1, 2, 3, 4, 5] = none) := by
  refine ⟨⟨rfl, ?_⟩, ⟨by decide, ?_⟩, ⟨by decide, ?_⟩⟩
  · exact (snapshot_header_magic_validation
      { Magic := SnapshotMagic, Version := 1, VectorDim := 0, DocCount := 0,
        TUCount := 0, EntCount := 0, RelCount := 0, CommCount := 0,
        QueryCount := 0, CreatedAt := 0 } [] []
      { Magic := SnapshotMagic, Version := 1, VectorDim := 0, DocCount := 0,
        TUCount := 0, EntCount := 0, RelCount := 0, CommCount := 0,
        QueryCount := 0, CreatedAt := 0 }).2.1 rfl
  · exact (snapshot_header_magic_validation
      { Magic := SnapshotMagic, Version := 1, VectorDim := 0, DocCount := 0,
        TUCount := 0, EntCount := 0, RelCount := 0, CommCount := 0,
        QueryCount := 0, CreatedAt := 0 } [9, 9, 9, 9] []
      { Magic := SnapshotMagic, Version := 1, VectorDim := 0, DocCount := 0,
        TUCount := 0, EntCount := 0, RelCount := 0, CommCount := 0,
        QueryCount := 0, CreatedAt := 0 }).2.2.1 (by decide)
  · exact (snapshot_header_magic_validation
      { Magic := SnapshotMagic, Version := 1, VectorDim := 0, DocCount := 0,
        TUCount := 0, EntCount := 0, RelCount := 0, CommCount := 0,
        QueryCount := 0, CreatedAt := 0 } [] [1, 2, 3, 4, 5]
      { Magic := SnapshotMagic, Version := 1, VectorDim := 0, DocCount := 0,
        TUCount := 0, EntCount := 0, RelCount := 0, CommCount := 0,
        QueryCount := 0, CreatedAt := 0 }).2.2.2.2 (by decide)

end Codec

end Gibram
